import Mathlib

set_option linter.unusedVariables false

/-!
Verification of the image-metadata generation pipeline
(src/metadata_extraction_tool.py).

The program is a sequential pipeline: resolve input image paths, then for
each image compress it in place, query a label-detection service for tags,
base64-encode the image and query a captioning service for a description,
and finally write one CSV row per image.

Shallow embedding conventions:
  * External effects are explicit inputs.  The outcome of each outbound
    HTTP call, the result of reading a file, and the relevant environment
    variables are fields of an environment record; the pipeline functions
    are pure functions of those inputs.
  * The model covers the non-Colab (local) execution mode:
    is_running_in_colab() is False, so main takes the LOCAL MODE branch.
  * JSON field values are modelled as strings; an absent field is none.
  * Python string truthiness (`if s:`) is modelled as an emptiness test.
  * Python str.strip() is modelled over the ASCII whitespace characters;
    str.lower() over ASCII letters.  All strings the claims quantify over
    are ASCII, so the difference with full Unicode handling is irrelevant.
  * The resize arithmetic `int(height * (max_width / float(width)))` is
    computed by the source in double-precision floats; it is modelled by
    exact natural division, the floor of the same rational value.
-/

/-- Configuration constant OUTPUT_CSV_FILENAME from the source. -/
def OUTPUT_CSV_FILENAME : String := "image_metadata.csv"

/-- Configuration constant MAX_IMAGE_WIDTH from the source. -/
def MAX_IMAGE_WIDTH : Nat := 1024

/-- Configuration constant COMPRESSION_QUALITY from the source. -/
def COMPRESSION_QUALITY : Nat := 85

/-- Python-style lowercasing of one ASCII character, modelling str.lower()
on the ASCII range used by the accepted extensions. -/
def lowerAscii (c : Char) : Char :=
  if 'A' ≤ c ∧ c ≤ 'Z' then Char.ofNat (c.toNat + 32) else c

/-- Suffix test on character lists: true when the second list is a suffix
of the first.  Models Python str.endswith for a single candidate. -/
def hasSuffix (s suffix : List Char) : Bool :=
  if s.length < suffix.length then false
  else decide (s.drop (s.length - suffix.length) = suffix)

/-- The accepted image extensions, as character lists
(source: the tuple passed to endswith in main). -/
def IMAGE_EXTENSIONS : List (List Char) :=
  [".png".data, ".jpg".data, ".jpeg".data, ".gif".data, ".bmp".data, ".tiff".data]

/-- Models `f_name.lower().endswith((".png", ".jpg", ".jpeg", ".gif", ".bmp", ".tiff"))`
from main. -/
def hasImageExtension (name : String) : Bool :=
  IMAGE_EXTENSIONS.any (fun ext => hasSuffix (name.data.map lowerAscii) ext)

/-- Models Python os.path.basename on POSIX paths: the part of the path
after the last slash. -/
def basename (p : String) : String :=
  String.mk (p.data.foldl (fun acc c => if c = '/' then [] else acc ++ [c]) [])

/-- Models Python sep.join(xs): the elements interleaved with the
separator, in order. -/
def joinSep (sep : String) : List String → String
  | [] => ""
  | [x] => x
  | x :: y :: t => x ++ sep ++ joinSep sep (y :: t)

/-- Models Python str.strip() (ASCII whitespace). -/
def pyStrip (s : String) : String :=
  String.mk (((s.data.dropWhile pyIsSpace).reverse.dropWhile pyIsSpace).reverse)
where
  pyIsSpace (c : Char) : Bool :=
    c == ' ' || c == '\t' || c == '\n' || c == '\r' || c == '\x0b' || c == '\x0c'

/-- The outcome of the Google Vision label_detection interaction, an input
to get_image_tags_from_google.  `labels` carries the response with its
error message field (empty when no error is reported) and the
descriptions of its returned labels in response order; `exn` stands for any
exception raised before a response is obtained (client construction, file
read, network failure). -/
inductive VisionOutcome where
  | labels (descriptions : List String) (errorMessage : String)
  | exn
deriving DecidableEq

/-- Models get_image_tags_from_google.  When the response reports an error
message the source raises and catches its own exception, returning the
failure sentinel; otherwise it joins the label descriptions with a comma
separator and substitutes the no-tags sentinel for an empty join. -/
def get_image_tags_from_google (v : VisionOutcome) : String :=
  match v with
  | .exn => "Google Vision tags failed"
  | .labels descriptions errorMessage =>
    if errorMessage = "" then
      if joinSep ", " descriptions = "" then "No tags found by Google Vision"
      else joinSep ", " descriptions
    else
      "Google Vision tags failed"

/-- The JSON body parsed from a decodable Astica response: the status,
error and caption fields, each possibly absent. -/
structure AsticaJson where
  status : Option String
  error : Option String
  caption : Option String
deriving DecidableEq

/-- The outcome of the HTTP POST in get_description_from_astica.
`requestError` models a requests.RequestException (connection failure,
timeout, DNS); `httpError` models raise_for_status raising on a non-2xx
status; `jsonError` models response.json() raising on undecodable JSON;
`ok` carries the decoded body. -/
inductive AsticaHttp where
  | requestError
  | httpError
  | jsonError
  | ok (body : AsticaJson)
deriving DecidableEq

/-- The condition under which the source treats the decoded body as a
service-reported error: status equals the error marker, or an error key is
present. -/
def asticaReportsError (body : AsticaJson) : Bool :=
  body.status == some "error" || body.error.isSome

/-- Models get_description_from_astica.  The api key argument models
os.environ.get with none for an unset variable; Python truthiness also
treats an empty key as unset.  The base64 payload does not influence the
modelled outcome but is kept for signature fidelity. -/
def get_description_from_astica (image_base64 : String) (astica_api_key : Option String)
    (http : AsticaHttp) : String :=
  match astica_api_key with
  | none => "Astica API key not configured"
  | some k =>
    if k = "" then "Astica API key not configured"
    else
      match http with
      | .requestError => "Astica API request failed (Connection/Request error)"
      | .httpError => "Astica API request failed (HTTP error)"
      | .jsonError => "Astica API response JSON decoding failed"
      | .ok body =>
        if asticaReportsError body then
          "Astica API error: " ++ body.error.getD "Unknown Astica API error"
        else
          if pyStrip (body.caption.getD "") = "" then
            "No description available from Astica"
          else pyStrip (body.caption.getD "")

/-- Models the dimension and quality effect of compress_image: when the
current width exceeds max_width the image is resized to max_width wide with
the height scaled by the same ratio (floor), otherwise the dimensions are
kept; the file is re-encoded at the given quality either way. -/
structure SavedImage where
  width : Nat
  height : Nat
  quality : Nat
deriving DecidableEq

/-- Models compress_image on a readable image (the success path of its
try block).  The source computes the scaled height in floats; modelled
exactly as the floor of height * max_width / width. -/
def compress_image (width height max_width quality : Nat) : SavedImage :=
  if width > max_width then
    { width := max_width, height := height * max_width / width, quality := quality }
  else
    { width := width, height := height, quality := quality }

/-- The per-image record accumulated by main and written to the CSV. -/
structure ImageRecord where
  filename : String
  description : String
  tags : String
deriving DecidableEq

/-- The external-world inputs consumed while processing one image: the
label-detection outcome, the result of convert_image_to_base64 (none when
reading the file raised), and the captioning HTTP outcome. -/
structure ImageExternals where
  vision : VisionOutcome
  base64 : Option String
  asticaHttp : AsticaHttp

/-- Models process_image_metadata.  compress_image mutates the file in
place and does not influence the record fields.  When base64 conversion
returned none, or returned an empty string (falsy in Python), the
description client is not invoked and the skipped sentinel is kept. -/
def process_image_metadata (image_path : String) (x : ImageExternals)
    (astica_api_key : Option String) : ImageRecord :=
  let filename := basename image_path
  let google_tags := get_image_tags_from_google x.vision
  let astica_description :=
    match x.base64 with
    | none => "Astica processing skipped (image not available for base64)"
    | some b64 =>
      if b64 = "" then "Astica processing skipped (image not available for base64)"
      else get_description_from_astica b64 astica_api_key x.asticaHttp
  { filename := filename, description := astica_description, tags := google_tags }

/-- One entry of a directory listing: its name and whether it is a regular
file (os.listdir also returns subdirectory names). -/
structure DirEntry where
  name : String
  isRegularFile : Bool
deriving DecidableEq

/-- The kind of the path the user entered at the prompt: nonexistent, a
directory with its listing, a regular file, or something else. -/
inductive PathKind where
  | missing
  | directory (entries : List DirEntry)
  | file
  | other

/-- The local input source: the path string entered at the prompt and what
the filesystem says about it. -/
structure LocalSource where
  path : String
  kind : PathKind

/-- Models the image-path selection of main in local mode: none when main
returns early with an error message (nonexistent path, non-image single
file, or a path that is neither file nor directory); otherwise the list of
paths to process.  Directory entries are selected by name suffix alone. -/
def selectImagePaths (src : LocalSource) : Option (List String) :=
  match src.kind with
  | .missing => none
  | .directory entries =>
    some ((entries.filter (fun e => hasImageExtension e.name)).map
      (fun e => src.path ++ "/" ++ e.name))
  | .file =>
    if hasImageExtension src.path then some [src.path] else none
  | .other => none

/-- The environment of one local-mode run of main: whether
setup_google_credentials succeeded, the ASTICA_API_KEY variable, the input
source, and the external-world inputs for each image path. -/
structure MainEnv where
  credsOk : Bool
  asticaKey : Option String
  source : LocalSource
  externals : String → ImageExternals

/-- The observable result of a run of main: the accumulated records and
the CSV content written, none when no file was created. -/
structure MainResult where
  records : List ImageRecord
  csv : Option (List (List String))

/-- The fieldnames list passed to csv.DictWriter in main. -/
def FIELDNAMES : List String := ["Filename", "Description", "Tags"]

/-- The dict built by process_image_metadata for one record, as an
association list in insertion order; its keys are the lowercase
filename, description and tags. -/
def recordDict (r : ImageRecord) : List (String × String) :=
  [("filename", r.filename), ("description", r.description), ("tags", r.tags)]

/-- Models DictWriter conversion of one row dict under the default
extrasaction (raise): none models the raised ValueError when the dict
holds a key outside fieldnames, otherwise the values in fieldnames order
(a missing key falls back to the restval, written as an empty field). -/
def dictWriterRow (fieldnames : List String) (row : List (String × String)) :
    Option (List String) :=
  if (row.map Prod.fst).all (fun k => fieldnames.contains k) then
    some (fieldnames.map (fun f => (row.lookup f).getD ""))
  else none

/-- Models writer.writerows in main: rows are converted and written in
order until the first dict whose conversion raises, which aborts the
loop; the except clause in main swallows the error, so the rows already
written remain in the file. -/
def writtenRows (fieldnames : List String) :
    List (List (String × String)) → List (List String)
  | [] => []
  | row :: rest =>
    match dictWriterRow fieldnames row with
    | none => []
    | some r => r :: writtenRows fieldnames rest

/-- The CSV content produced by the export block of main: writeheader
writes the header row, then writerows processes the record dicts.
Because the record dict keys (filename, description, tags) are not among
the fieldnames (Filename, Description, Tags), the first record raises
ValueError, which main swallows, leaving the header row plus whatever
rows were written before the failure. -/
def csvContent (records : List ImageRecord) : List (List String) :=
  FIELDNAMES :: writtenRows FIELDNAMES (records.map recordDict)

/-- Models main in local mode (named main_run because the name main is
reserved for executables in Lean).  The run aborts before processing when the
mandatory Google credential is unresolved; an absent ASTICA_API_KEY only
prints a warning.  Every selected path yields exactly one record; the
export block runs only when at least one record was produced, and its
output is csvContent, which accounts for the DictWriter fieldnames and
key mismatch.  Every branch returns normally (the source never lets an
exception escape main on these paths). -/
def main_run (env : MainEnv) : MainResult :=
  if env.credsOk = false then { records := [], csv := none }
  else
    match selectImagePaths env.source with
    | none => { records := [], csv := none }
    | some paths =>
      if paths = [] then { records := [], csv := none }
      else
        let records :=
          paths.map (fun p => process_image_metadata p (env.externals p) env.asticaKey)
        { records := records, csv := some (csvContent records) }

/-! Helper lemmas about the string model. -/

/-- Appending strings concatenates their character data. -/
theorem strData_append : ∀ (s t : String), (s ++ t).data = s.data ++ t.data
  | ⟨_⟩, ⟨_⟩ => rfl

/-- Rebuilding a string from its character data is the identity. -/
theorem strMk_data : ∀ (s : String), String.mk s.data = s
  | ⟨_⟩ => rfl

/-- A string whose character data is empty is the empty string. -/
theorem eq_empty_of_data_eq_nil (s : String) (h : s.data = []) : s = "" := by
  cases s with
  | mk l => cases h; rfl

/-- An append whose left part is non-empty is non-empty. -/
theorem append_ne_empty_left (s t : String) (hs : s ≠ "") : s ++ t ≠ "" := by
  intro h
  have hd := congrArg String.data h
  rw [strData_append] at hd
  have h0 : ("" : String).data = [] := rfl
  rw [h0] at hd
  rcases List.append_eq_nil.mp hd with ⟨h1, _⟩
  exact hs (eq_empty_of_data_eq_nil s h1)

/-- An append whose right part is non-empty is non-empty. -/
theorem append_ne_empty_right (s t : String) (ht : t ≠ "") : s ++ t ≠ "" := by
  intro h
  have hd := congrArg String.data h
  rw [strData_append] at hd
  have h0 : ("" : String).data = [] := rfl
  rw [h0] at hd
  rcases List.append_eq_nil.mp hd with ⟨_, h2⟩
  exact ht (eq_empty_of_data_eq_nil t h2)

/-- The comma join is empty exactly when the list is empty or is the
singleton empty string. -/
theorem joinSep_comma_eq_empty_iff (ls : List String) :
    joinSep ", " ls = "" ↔ ls = [] ∨ ls = [""] := by
  match ls with
  | [] => simp [joinSep]
  | [x] =>
    simp only [joinSep]
    constructor
    · intro h
      right
      rw [h]
    · rintro (h | h)
      · simp at h
      · rw [List.cons.injEq] at h
        exact h.1
  | x :: y :: t =>
    constructor
    · intro h
      exact absurd h
        (append_ne_empty_left _ _ (append_ne_empty_right x ", " (by decide)))
    · intro h
      rcases h with h | h <;> simp at h

/-- A string built by appending onto the fixed service-error lead-in
differs from any string whose first eighteen characters differ from that
lead-in. -/
theorem astica_service_error_ne (m s : String)
    (h : s.data.take 18 ≠ ("Astica API error: " : String).data) :
    "Astica API error: " ++ m ≠ s := by
  intro he
  apply h
  rw [← he, strData_append]
  have hl : (("Astica API error: " : String).data).length = 18 := by decide
  rw [← hl, List.take_left]

/-- Fold step of basename: a list without slashes appends onto the
accumulator unchanged. -/
theorem baseFold_no_slash (l : List Char) (acc : List Char)
    (h : ∀ c ∈ l, c ≠ '/') :
    l.foldl (fun acc c => if c = '/' then [] else acc ++ [c]) acc = acc ++ l := by
  induction l generalizing acc with
  | nil => simp
  | cons c t ih =>
    have hc : c ≠ '/' := h c (by simp)
    simp only [List.foldl_cons, if_neg hc]
    rw [ih (acc ++ [c]) (fun d hd => h d (by simp [hd]))]
    simp

/-- basename of a joined directory path and slash-free entry name is the
entry name. -/
theorem basename_append (p n : String) (h : ∀ c ∈ n.data, c ≠ '/') :
    basename (p ++ "/" ++ n) = n := by
  unfold basename
  rw [strData_append, strData_append]
  have hslash : ("/" : String).data = ['/'] := rfl
  rw [hslash, List.foldl_append, List.foldl_append]
  have hstep : List.foldl (fun acc c => if c = '/' then [] else acc ++ [c])
      (List.foldl (fun acc c => if c = '/' then [] else acc ++ [c]) [] p.data) ['/']
      = [] := by simp
  rw [hstep, baseFold_no_slash n.data [] h, List.nil_append]

/-- The tag client never returns the empty string. -/
theorem get_image_tags_ne_empty (v : VisionOutcome) :
    get_image_tags_from_google v ≠ "" := by
  cases v with
  | exn => decide
  | labels ls em =>
    by_cases he : em = ""
    · by_cases hj : joinSep ", " ls = ""
      · simp only [get_image_tags_from_google, if_pos he, if_pos hj]
        decide
      · simp only [get_image_tags_from_google, if_pos he, if_neg hj]
        exact hj
    · simp only [get_image_tags_from_google, if_neg he]
      decide

/-- The description client never returns the empty string. -/
theorem get_description_ne_empty (b : String) (key : Option String)
    (http : AsticaHttp) : get_description_from_astica b key http ≠ "" := by
  unfold get_description_from_astica
  cases key with
  | none =>
    show "Astica API key not configured" ≠ ""
    decide
  | some k =>
    by_cases hk : k = ""
    · simp only [if_pos hk]
      decide
    · simp only [if_neg hk]
      cases http with
      | requestError =>
        show "Astica API request failed (Connection/Request error)" ≠ ""
        decide
      | httpError =>
        show "Astica API request failed (HTTP error)" ≠ ""
        decide
      | jsonError =>
        show "Astica API response JSON decoding failed" ≠ ""
        decide
      | ok body =>
        by_cases herr : asticaReportsError body
        · simp only [if_pos herr]
          exact append_ne_empty_left _ _ (by decide)
        · simp only [if_neg herr]
          by_cases hc : pyStrip (body.caption.getD "") = ""
          · simp only [if_pos hc]
            decide
          · simp only [if_neg hc]
            exact hc

/-! Claim theorems. -/

/-- C4: compress_image changes dimensions only when the current width
exceeds the configured maximum (1024): then the new width is exactly the
maximum and the new height is the original height scaled by
max_width / original_width (the floor of the exact ratio, so the aspect
ratio is preserved within rounding, expressed by the two division bounds);
an image not wider than the maximum keeps its dimensions and is only
re-encoded at the configured quality. -/
theorem compress_image_resize_only_when_wide (w h : Nat) :
    (w > MAX_IMAGE_WIDTH →
      (compress_image w h MAX_IMAGE_WIDTH COMPRESSION_QUALITY).width = MAX_IMAGE_WIDTH
      ∧ (compress_image w h MAX_IMAGE_WIDTH COMPRESSION_QUALITY).height
          = h * MAX_IMAGE_WIDTH / w
      ∧ w * (compress_image w h MAX_IMAGE_WIDTH COMPRESSION_QUALITY).height
          ≤ h * MAX_IMAGE_WIDTH
      ∧ h * MAX_IMAGE_WIDTH
          < w * ((compress_image w h MAX_IMAGE_WIDTH COMPRESSION_QUALITY).height + 1))
    ∧ (w ≤ MAX_IMAGE_WIDTH →
      (compress_image w h MAX_IMAGE_WIDTH COMPRESSION_QUALITY).width = w
      ∧ (compress_image w h MAX_IMAGE_WIDTH COMPRESSION_QUALITY).height = h)
    ∧ (compress_image w h MAX_IMAGE_WIDTH COMPRESSION_QUALITY).quality
        = COMPRESSION_QUALITY := by
  refine ⟨?_, ?_, ?_⟩
  · intro hw
    have hw0 : 0 < w := Nat.lt_trans (by decide) hw
    simp only [compress_image, if_pos hw]
    refine ⟨trivial, trivial, ?_, ?_⟩
    · have h1 := Nat.div_add_mod (h * MAX_IMAGE_WIDTH) w
      omega
    · have h1 := Nat.div_add_mod (h * MAX_IMAGE_WIDTH) w
      have h2 := Nat.mod_lt (h * MAX_IMAGE_WIDTH) hw0
      rw [Nat.mul_add, Nat.mul_one]
      omega
  · intro hw
    simp only [compress_image, if_neg (Nat.not_lt.mpr hw)]
    exact ⟨trivial, trivial⟩
  · by_cases hw : w > MAX_IMAGE_WIDTH
    · simp only [compress_image, if_pos hw]
    · simp only [compress_image, if_neg hw]

/-- C4 witness: a 2048 by 100 image is resized to width 1024, while a 500
wide image keeps its width. -/
theorem compress_image_resize_only_when_wide_witness :
    2048 > MAX_IMAGE_WIDTH
    ∧ (compress_image 2048 100 MAX_IMAGE_WIDTH COMPRESSION_QUALITY).width = MAX_IMAGE_WIDTH
    ∧ 500 ≤ MAX_IMAGE_WIDTH
    ∧ (compress_image 500 300 MAX_IMAGE_WIDTH COMPRESSION_QUALITY).width = 500 :=
  ⟨by decide, ((compress_image_resize_only_when_wide 2048 100).1 (by decide)).1,
   by decide, ((compress_image_resize_only_when_wide 500 300).2.1 (by decide)).1⟩

/-- C7: normalization is idempotent on dimensions: an image not wider than
the maximum is left unchanged, and a second run of compress_image on the
output of a first run never changes the dimensions again. -/
theorem compress_image_idempotent_dims (w h : Nat) :
    (w ≤ MAX_IMAGE_WIDTH →
      compress_image w h MAX_IMAGE_WIDTH COMPRESSION_QUALITY
        = { width := w, height := h, quality := COMPRESSION_QUALITY })
    ∧ compress_image
        (compress_image w h MAX_IMAGE_WIDTH COMPRESSION_QUALITY).width
        (compress_image w h MAX_IMAGE_WIDTH COMPRESSION_QUALITY).height
        MAX_IMAGE_WIDTH COMPRESSION_QUALITY
      = compress_image w h MAX_IMAGE_WIDTH COMPRESSION_QUALITY := by
  constructor
  · intro hw
    simp only [compress_image, if_neg (Nat.not_lt.mpr hw)]
  · by_cases hw : w > MAX_IMAGE_WIDTH
    · simp only [compress_image, if_pos hw]
      simp only [if_neg (Nat.lt_irrefl MAX_IMAGE_WIDTH)]
    · simp only [compress_image, if_neg hw]

/-- C7 witness: an 800 by 600 image is unchanged by normalization. -/
theorem compress_image_idempotent_dims_witness :
    compress_image 800 600 MAX_IMAGE_WIDTH COMPRESSION_QUALITY
      = { width := 800, height := 600, quality := COMPRESSION_QUALITY } :=
  (compress_image_idempotent_dims 800 600).1 (by decide)

/-- C3 counterexample: a response with exactly one label whose description
is the empty string joins to the empty string, and the source returns the
no-tags sentinel instead of the joined string, so the output is not the
join of the returned labels. -/
theorem get_image_tags_single_empty_label :
    joinSep ", " [""] = ""
    ∧ get_image_tags_from_google (.labels [""] "") = "No tags found by Google Vision"
    ∧ get_image_tags_from_google (.labels [""] "") ≠ joinSep ", " [""] := by
  decide

/-- C3 amended: the tag client returns the labels joined by the comma
separator in response order whenever that join is non-empty; it returns
the no-tags sentinel exactly when the join is empty, which happens for
zero labels and for a single empty label description; on a
service-reported error or any exception it returns the fixed failure
sentinel instead of raising. -/
theorem get_image_tags_classification (descriptions : List String)
    (errorMessage : String) :
    (joinSep ", " descriptions = "" ↔ descriptions = [] ∨ descriptions = [""])
    ∧ (errorMessage = "" → joinSep ", " descriptions ≠ "" →
        get_image_tags_from_google (.labels descriptions errorMessage)
          = joinSep ", " descriptions)
    ∧ (errorMessage = "" → joinSep ", " descriptions = "" →
        get_image_tags_from_google (.labels descriptions errorMessage)
          = "No tags found by Google Vision")
    ∧ (errorMessage ≠ "" →
        get_image_tags_from_google (.labels descriptions errorMessage)
          = "Google Vision tags failed")
    ∧ get_image_tags_from_google .exn = "Google Vision tags failed" := by
  refine ⟨joinSep_comma_eq_empty_iff descriptions, ?_, ?_, ?_, rfl⟩
  · intro he hj
    simp only [get_image_tags_from_google, if_pos he, if_neg hj]
  · intro he hj
    simp only [get_image_tags_from_google, if_pos he, if_pos hj]
  · intro he
    simp only [get_image_tags_from_google, if_neg he]

/-- C3 witness: two labels are joined in order, and zero labels give the
no-tags sentinel. -/
theorem get_image_tags_classification_witness :
    get_image_tags_from_google (.labels ["cat", "dog"] "") = "cat, dog"
    ∧ get_image_tags_from_google (.labels [] "") = "No tags found by Google Vision" := by
  constructor
  · rw [(get_image_tags_classification ["cat", "dog"] "").2.1 rfl (by decide)]
    decide
  · exact (get_image_tags_classification [] "").2.2.1 rfl rfl

/-- C9 counterexample: a successful response whose two labels both have
empty descriptions is an empty result, yet it joins to the separator
string, which is truthy in Python, so the source returns it and not the
no-tags sentinel: empty successful results are not always mapped to a
sentinel. -/
theorem get_image_tags_two_empty_labels :
    get_image_tags_from_google (.labels ["", ""] "") = ", "
    ∧ (", " : String) ≠ "No tags found by Google Vision" := by
  decide

/-- C9 amended: every record produced by process_image_metadata has a
non-empty description and non-empty tags: every failure path yields a
non-empty sentinel, a missing or whitespace-only caption yields a
non-empty sentinel, and an empty join of label descriptions (zero labels
or one empty description) yields a non-empty sentinel, while two or more
all-empty label descriptions yield the non-empty separator string
instead of a sentinel. -/
theorem process_image_metadata_fields_nonempty (p : String) (x : ImageExternals)
    (key : Option String) :
    (process_image_metadata p x key).description ≠ ""
    ∧ (process_image_metadata p x key).tags ≠ "" := by
  constructor
  · show (match x.base64 with
      | none => "Astica processing skipped (image not available for base64)"
      | some b64 =>
        if b64 = "" then "Astica processing skipped (image not available for base64)"
        else get_description_from_astica b64 key x.asticaHttp) ≠ ""
    cases hb : x.base64 with
    | none =>
      show "Astica processing skipped (image not available for base64)" ≠ ""
      decide
    | some b64 =>
      by_cases h0 : b64 = ""
      · simp only [if_pos h0]
        decide
      · simp only [if_neg h0]
        exact get_description_ne_empty b64 key x.asticaHttp
  · show get_image_tags_from_google x.vision ≠ ""
    exact get_image_tags_ne_empty x.vision

/-- C2: for every input, the description client returns either the parsed
(stripped) caption or exactly one sentinel determined by the failure kind,
the kinds being mutually exclusive by the priority of the case analysis:
missing (or empty, which Python treats as unset) API key first, then
network/connection error, non-2xx HTTP status, undecodable JSON,
service-reported error payload, and missing (or whitespace-only) caption;
the five fixed sentinels are pairwise distinct and the service-error
sentinel family is distinct from all of them.  The model returns a string
on every input, reflecting that no exception escapes this boundary. -/
theorem get_description_classification (b64 : String) (key : Option String)
    (http : AsticaHttp) :
    ((key = none ∨ key = some "") →
      get_description_from_astica b64 key http = "Astica API key not configured")
    ∧ (∀ k, key = some k → k ≠ "" →
        (http = .requestError →
          get_description_from_astica b64 key http
            = "Astica API request failed (Connection/Request error)")
        ∧ (http = .httpError →
          get_description_from_astica b64 key http
            = "Astica API request failed (HTTP error)")
        ∧ (http = .jsonError →
          get_description_from_astica b64 key http
            = "Astica API response JSON decoding failed")
        ∧ (∀ body, http = .ok body →
            (asticaReportsError body = true →
              get_description_from_astica b64 key http
                = "Astica API error: " ++ body.error.getD "Unknown Astica API error")
            ∧ (asticaReportsError body = false →
                pyStrip (body.caption.getD "") = "" →
              get_description_from_astica b64 key http
                = "No description available from Astica")
            ∧ (asticaReportsError body = false →
                pyStrip (body.caption.getD "") ≠ "" →
              get_description_from_astica b64 key http
                = pyStrip (body.caption.getD ""))))
    ∧ List.Pairwise (fun a b => a ≠ b)
        ["Astica API key not configured",
         "Astica API request failed (Connection/Request error)",
         "Astica API request failed (HTTP error)",
         "Astica API response JSON decoding failed",
         "No description available from Astica"]
    ∧ (∀ m, ("Astica API error: " ++ m ≠ "Astica API key not configured")
        ∧ ("Astica API error: " ++ m ≠ "Astica API request failed (Connection/Request error)")
        ∧ ("Astica API error: " ++ m ≠ "Astica API request failed (HTTP error)")
        ∧ ("Astica API error: " ++ m ≠ "Astica API response JSON decoding failed")
        ∧ ("Astica API error: " ++ m ≠ "No description available from Astica")) := by
  refine ⟨?_, ?_, by decide, ?_⟩
  · rintro (hk | hk) <;> subst hk
    · rfl
    · rfl
  · rintro k rfl hk
    simp only [get_description_from_astica, if_neg hk]
    refine ⟨?_, ?_, ?_, ?_⟩
    · rintro rfl; rfl
    · rintro rfl; rfl
    · rintro rfl; rfl
    · rintro body rfl
      refine ⟨?_, ?_, ?_⟩
      · intro herr
        simp only [if_pos herr]
      · intro herr hc
        simp [herr, hc]
      · intro herr hc
        simp [herr, hc]
  · intro m
    exact ⟨astica_service_error_ne m _ (by decide),
      astica_service_error_ne m _ (by decide),
      astica_service_error_ne m _ (by decide),
      astica_service_error_ne m _ (by decide),
      astica_service_error_ne m _ (by decide)⟩

/-- C2 witness: a present key with a non-2xx HTTP status yields the HTTP
error sentinel. -/
theorem get_description_classification_witness :
    get_description_from_astica "QUJD" (some "key") .httpError
      = "Astica API request failed (HTTP error)" :=
  (((get_description_classification "QUJD" (some "key") .httpError).2.1
    "key" rfl (by decide)).2.1) rfl

/-- C8: when base64 conversion failed the description client is never
invoked: the produced record does not depend on the captioning inputs or
the API key, its description is the fixed skipped sentinel, and its tags
are still produced by the tag client. -/
theorem base64_failure_skips_description (p : String) (v : VisionOutcome)
    (a₁ a₂ : AsticaHttp) (k₁ k₂ : Option String) :
    process_image_metadata p { vision := v, base64 := none, asticaHttp := a₁ } k₁
      = process_image_metadata p { vision := v, base64 := none, asticaHttp := a₂ } k₂
    ∧ (process_image_metadata p { vision := v, base64 := none, asticaHttp := a₁ } k₁).description
        = "Astica processing skipped (image not available for base64)"
    ∧ (process_image_metadata p { vision := v, base64 := none, asticaHttp := a₁ } k₁).tags
        = get_image_tags_from_google v :=
  ⟨rfl, rfl, rfl⟩

/-- Any non-empty record list yields a header-only CSV: the first record
dict already raises in the DictWriter conversion. -/
theorem csvContent_cons (r : ImageRecord) (rest : List ImageRecord) :
    csvContent (r :: rest) = [["Filename", "Description", "Tags"]] := rfl

/-- C1: the export block never writes the data rows the claim requires.
The DictWriter fieldnames (Filename, Description, Tags) do not contain
the record dict keys (filename, description, tags), so converting the
first record yields the raised ValueError, main swallows it, and every
run with at least one record creates a CSV holding only the header row
and zero data rows; a run with zero records still creates no CSV and
returns normally. -/
theorem main_run_header_only_csv (env : MainEnv) :
    (∀ r : ImageRecord, dictWriterRow FIELDNAMES (recordDict r) = none)
    ∧ ((main_run env).records ≠ [] →
        (main_run env).csv = some [["Filename", "Description", "Tags"]])
    ∧ ((main_run env).records = [] → (main_run env).csv = none) := by
  have hcsv : ∀ rs : List ImageRecord, rs ≠ [] →
      csvContent rs = [["Filename", "Description", "Tags"]] := by
    intro rs hne
    cases rs with
    | nil => exact absurd rfl hne
    | cons r rest => exact csvContent_cons r rest
  refine ⟨fun r => rfl, ?_⟩
  unfold main_run
  by_cases hc : env.credsOk = false
  · simp [hc]
  · simp only [if_neg hc]
    cases hsel : selectImagePaths env.source with
    | none => simp
    | some paths =>
      by_cases hp : paths = []
      · simp [hp]
      · have hmne : paths.map
            (fun p => process_image_metadata p (env.externals p) env.asticaKey) ≠ [] := by
          simpa using hp
        simp [hp, hcsv _ hmne]

/-- C1 witness: a run over a directory holding one image creates the
header-only CSV, and a run over an empty directory creates none. -/
theorem main_run_header_only_csv_witness :
    (main_run ⟨true, none, ⟨"imgs", .directory [⟨"a.jpg", true⟩]⟩,
        fun _ => ⟨.exn, none, .requestError⟩⟩).csv
      = some [["Filename", "Description", "Tags"]]
    ∧ (main_run ⟨true, none, ⟨"imgs", .directory []⟩,
        fun _ => ⟨.exn, none, .requestError⟩⟩).csv = none :=
  ⟨(main_run_header_only_csv _).2.1 (by decide),
   (main_run_header_only_csv _).2.2 (by decide)⟩

/-- C5: in local directory mode the records produced are, in listing
order, exactly those of the entries whose names end case-insensitively in
an accepted image extension (filenames equal the entry names, which hold
no slash); in particular a directory listing one .jpg file and one .txt
file yields exactly one record, for the .jpg only. -/
theorem main_run_dir_selection (path : String) (entries : List DirEntry)
    (key : Option String) (ex : String → ImageExternals)
    (hnames : ∀ e ∈ entries, ∀ c ∈ e.name.data, c ≠ '/') :
    (main_run ⟨true, key, ⟨path, .directory entries⟩, ex⟩).records.map
        ImageRecord.filename
      = (entries.filter (fun e => hasImageExtension e.name)).map DirEntry.name
    ∧ (main_run ⟨true, key,
        ⟨"imgs", .directory [⟨"photo.jpg", true⟩, ⟨"notes.txt", true⟩]⟩, ex⟩).records.map
        ImageRecord.filename = ["photo.jpg"] := by
  constructor
  · have hmain : (main_run ⟨true, key, ⟨path, .directory entries⟩, ex⟩).records
        = ((entries.filter (fun e => hasImageExtension e.name)).map
            (fun e => path ++ "/" ++ e.name)).map
            (fun p => process_image_metadata p (ex p) key) := by
      by_cases hf : (entries.filter (fun e => hasImageExtension e.name)).map
          (fun e => path ++ "/" ++ e.name) = []
      · simp [main_run, selectImagePaths, hf]
      · simp [main_run, selectImagePaths, hf]
    rw [hmain, List.map_map, List.map_map]
    apply List.map_congr_left
    intro e he
    have hmem : e ∈ entries := (List.mem_filter.mp he).1
    show (process_image_metadata (path ++ "/" ++ e.name)
        (ex (path ++ "/" ++ e.name)) key).filename = e.name
    show basename (path ++ "/" ++ e.name) = e.name
    exact basename_append path e.name (hnames e hmem)
  · have h1 : hasImageExtension "photo.jpg" = true := by decide
    have h2 : hasImageExtension "notes.txt" = false := by decide
    simp [main_run, selectImagePaths, h1, h2, process_image_metadata]
    decide

/-- C5 witness: the concrete two-entry directory produces exactly the one
record for the .jpg entry. -/
theorem main_run_dir_selection_witness :
    (main_run ⟨true, none,
        ⟨"imgs", .directory [⟨"photo.jpg", true⟩, ⟨"notes.txt", true⟩]⟩,
        fun _ => ⟨.exn, none, .requestError⟩⟩).records.map
      ImageRecord.filename = ["photo.jpg"] :=
  (main_run_dir_selection "imgs" [⟨"photo.jpg", true⟩, ⟨"notes.txt", true⟩] none
    (fun _ => ⟨.exn, none, .requestError⟩) (by decide)).2

/-- C6 counterexample: credentials resolve, the description API key is
absent, and the single image fails base64 conversion; the produced record
carries the skipped sentinel, not the missing-key sentinel, refuting that
every record carries the missing-key sentinel. -/
theorem main_run_missing_key_skipped_record :
    (main_run ⟨true, none, ⟨"d", .directory [⟨"a.jpg", true⟩]⟩,
        fun _ => ⟨.exn, none, .requestError⟩⟩).records.map ImageRecord.description
      = ["Astica processing skipped (image not available for base64)"]
    ∧ ("Astica processing skipped (image not available for base64)" : String)
        ≠ "Astica API key not configured" := by
  decide

/-- C6 amended: when the mandatory label-detection credential is
unresolved, main aborts before processing with no records and no CSV; when
only the optional description key is absent, main still processes every
selected path, and each record description is the missing-key sentinel
when its base64 conversion produced a usable (nonempty) string, and the
skipped sentinel otherwise. -/
theorem main_run_credential_asymmetry (env : MainEnv) :
    (env.credsOk = false → main_run env = { records := [], csv := none })
    ∧ (env.credsOk = true → env.asticaKey = none →
        (∀ paths, selectImagePaths env.source = some paths →
          (main_run env).records
            = paths.map (fun p => process_image_metadata p (env.externals p) none))
        ∧ (∀ p x, (process_image_metadata p x (none : Option String)).description
            = match x.base64 with
              | some b =>
                if b = "" then
                  "Astica processing skipped (image not available for base64)"
                else "Astica API key not configured"
              | none => "Astica processing skipped (image not available for base64)")) := by
  constructor
  · intro hc
    simp [main_run, hc]
  · intro hc hkey
    constructor
    · intro paths hsel
      unfold main_run
      rw [hc, hsel, hkey]
      by_cases hp : paths = []
      · simp [hp]
      · simp [hp]
    · intro p x
      show (match x.base64 with
        | none => "Astica processing skipped (image not available for base64)"
        | some b64 =>
          if b64 = "" then "Astica processing skipped (image not available for base64)"
          else get_description_from_astica b64 none x.asticaHttp) = _
      cases x.base64 with
      | none => rfl
      | some b64 =>
        by_cases h0 : b64 = ""
        · simp only [if_pos h0]
        · simp only [if_neg h0]
          rfl

/-- C6 witness: the abort branch on failed credentials, and the
missing-key sentinel on a record whose base64 conversion succeeded. -/
theorem main_run_credential_asymmetry_witness :
    main_run ⟨false, none, ⟨"d", .missing⟩, fun _ => ⟨.exn, none, .requestError⟩⟩
      = { records := [], csv := none }
    ∧ (process_image_metadata "d/a.jpg" ⟨.exn, some "QUJD", .requestError⟩
        (none : Option String)).description = "Astica API key not configured" := by
  constructor
  · exact (main_run_credential_asymmetry
      ⟨false, none, ⟨"d", .missing⟩, fun _ => ⟨.exn, none, .requestError⟩⟩).1 rfl
  · rw [((main_run_credential_asymmetry
      ⟨true, none, ⟨"d", .missing⟩, fun _ => ⟨.exn, none, .requestError⟩⟩).2
        rfl rfl).2 "d/a.jpg" ⟨.exn, some "QUJD", .requestError⟩]
    decide

/-- C10: the local directory scan selects entries by name suffix alone and
never consults the entry kind: changing every entry kind leaves the
selection unchanged, every entry whose name carries an accepted extension
is in the selected paths, and a subdirectory named like an image is
selected. -/
theorem selectImagePaths_ignores_entry_kind (path : String)
    (entries : List DirEntry) (k : Bool) :
    selectImagePaths ⟨path,
        .directory (entries.map (fun e => ⟨e.name, k⟩))⟩
      = selectImagePaths ⟨path, .directory entries⟩
    ∧ (∀ e ∈ entries, hasImageExtension e.name = true →
        ∀ ps, selectImagePaths ⟨path, .directory entries⟩ = some ps →
          (path ++ "/" ++ e.name) ∈ ps)
    ∧ selectImagePaths ⟨"d", .directory [⟨"sub.jpg", false⟩]⟩ = some ["d/sub.jpg"] := by
  refine ⟨?_, ?_, by decide⟩
  · simp only [selectImagePaths, Option.some.injEq]
    rw [List.filter_map, List.map_map]
    rfl
  · intro e he hx ps hps
    simp only [selectImagePaths, Option.some.injEq] at hps
    subst hps
    exact List.mem_map.mpr ⟨e, List.mem_filter.mpr ⟨he, hx⟩, rfl⟩

/-- C10 witness: the subdirectory entry named sub.jpg is in the selected
paths. -/
theorem selectImagePaths_ignores_entry_kind_witness :
    ("d" ++ "/" ++ "sub.jpg") ∈ ["d/sub.jpg"] :=
  (selectImagePaths_ignores_entry_kind "d" [⟨"sub.jpg", false⟩] true).2.1
    ⟨"sub.jpg", false⟩ (by decide) (by decide) ["d/sub.jpg"] (by decide)
